import Mathlib

/-!
A shallow embedding of the multi-store price tracker (`price.py`) in Lean 4,
together with theorems settling the specification claims about it.

Modelling conventions:
* Python strings are Lean `String`s; character-level work happens on `List Char`
  (`String.data`).
* Python floats that hold prices, rates and timestamps are modelled as `ℚ`
  (the arithmetic in the program is exact decimal arithmetic on parsed prices).
* Python dicts with optional keys are structures with `Option` fields; indexing
  a missing key (`alert['retail_price']`) is modelled in the `Except` monad as a
  `KeyError`.
* Network and HTML parsing are oracles: an attempt either raises a transport
  error, raises some other exception, or delivers a `Page`, which maps each CSS
  selector to the text of the first matching element (what
  `soup.select_one(sel).get_text(strip=True)` would return), mirroring how
  `get_store_price` consumes the page.
* Regular-expression searches from `extract_sku` and `clean_price_text` are
  translated rule by rule into scanning functions on `List Char`, preserving
  `re.search` semantics: leftmost match wins, quantifiers are greedy, and
  `re.IGNORECASE` is modelled by comparing lowered characters.
-/

namespace Price

/-! ## Price Parser: `clean_price_text` -/

/-- Numeric value of a list of decimal digit characters (most significant first). -/
def natOfDigits (l : List Char) : ℕ :=
  l.foldl (fun a c => 10 * a + (c.toNat - 48)) 0

/-- Value of a fractional digit block `fs` appearing after the decimal point. -/
def fracVal (l : List Char) : ℚ := (natOfDigits l : ℚ) / (10 : ℚ) ^ l.length

/-- The maximal run of digits at the head of the list (a greedy `\d+` / `\d{n,}`). -/
def digitRun (l : List Char) : List Char := l.takeWhile Char.isDigit

/-- `re.search(r'\d+(?:\.\d{1,2})?', cleaned)` followed by `float(...)`:
scan left to right for the first digit, take the greedy digit run, then an
optional `.` plus one or two fraction digits. -/
def firstNumberMatch : List Char → Option ℚ
  | [] => none
  | c :: rest =>
    if c.isDigit then
      let ds := digitRun (c :: rest)
      match (c :: rest).dropWhile Char.isDigit with
      | '.' :: r2 =>
        let fs := ((digitRun r2).take 2)
        if fs.isEmpty then some (natOfDigits ds : ℚ)
        else some ((natOfDigits ds : ℚ) + fracVal fs)
      | _ => some (natOfDigits ds : ℚ)
    else firstNumberMatch rest

/-- `clean_price_text`: drop commas, strip every character that is not a digit,
`.` or `,`, then extract the first number; `None` when nothing matches. -/
def clean_price_text (s : String) : Option ℚ :=
  let noComma := s.data.filter (fun c => c != ',')
  let cleaned := noComma.filter (fun c => c.isDigit || c == '.' || c == ',')
  firstNumberMatch cleaned

/-! ## Identifier Extractor: `extract_sku`

Each regex of the cascade becomes an "at this position" matcher `p·At`;
`scanFirst` supplies `re.search`'s left-to-right scan. -/

/-- `url.strip()` on the character list. -/
def trimChars (l : List Char) : List Char :=
  ((l.dropWhile Char.isWhitespace).reverse.dropWhile Char.isWhitespace).reverse

/-- Case-insensitive literal prefix match: the pattern literal is given in
lowercase and compared against the lowered subject; returns the remainder. -/
def ciPrefix : List Char → List Char → Option (List Char)
  | [], cs => some cs
  | _ :: _, [] => none
  | p :: ps, c :: cs => if c.toLower == p then ciPrefix ps cs else none

/-- `re.search`: try the position matcher at every start position, leftmost
success wins. -/
def scanFirst (f : List Char → Option (List Char)) : List Char → Option (List Char)
  | [] => f []
  | c :: rest =>
    match f (c :: rest) with
    | some v => some v
    | none => scanFirst f rest

/-- Backtracking core of rule 1 inside the `[^/]`-segment after `/product/`:
the greedy `[^/]*` means the rightmost `-` followed by 6 or more digits wins;
the capture is the greedy digit run after that dash. -/
def p1Seg : List Char → Option (List Char)
  | [] => none
  | c :: rest =>
    match p1Seg rest with
    | some v => some v
    | none => if c = '-' ∧ 6 ≤ (digitRun rest).length then some (digitRun rest) else none

/-- Rule 1: `/product/[^/]*-(\d{6,})`. -/
def p1At (cs : List Char) : Option (List Char) :=
  match ciPrefix "/product/".data cs with
  | none => none
  | some r => p1Seg (r.takeWhile (fun c => c != '/'))

/-- Rule 2: `/(\d{7,})`. -/
def p2At : List Char → Option (List Char)
  | [] => none
  | c :: rest =>
    if c = '/' ∧ 7 ≤ (digitRun rest).length then some (digitRun rest) else none

/-- Shared tail of rules 3-6: a separator character then a nonempty digit run. -/
def sepDigits (sep : Char → Bool) : List Char → Option (List Char)
  | c :: rest => if sep c ∧ digitRun rest ≠ [] then some (digitRun rest) else none
  | [] => none

/-- Separator class `[-=_]`. -/
def isSep1 (c : Char) : Bool := c == '-' || c == '=' || c == '_'

/-- Separator class `[=-]`. -/
def isSep2 (c : Char) : Bool := c == '=' || c == '-'

/-- Separator class: slash or dash. -/
def isSep3 (c : Char) : Bool := c == '/' || c == '-'

/-- Rule 3: `sku[-=_](\d+)`. -/
def p3At (cs : List Char) : Option (List Char) :=
  match ciPrefix "sku".data cs with
  | some r => sepDigits isSep1 r
  | none => none

/-- Rule 4: `p[-=_](\d+)`. -/
def p4At (cs : List Char) : Option (List Char) :=
  match ciPrefix "p".data cs with
  | some r => sepDigits isSep1 r
  | none => none

/-- Rule 5: `itemcode[=-](\d+)`. -/
def p5At (cs : List Char) : Option (List Char) :=
  match ciPrefix "itemcode".data cs with
  | some r => sepDigits isSep2 r
  | none => none

/-- Rule 6: `product` then a slash or dash then `(\d+)`. -/
def p6At (cs : List Char) : Option (List Char) :=
  match ciPrefix "product".data cs with
  | some r => sepDigits isSep3 r
  | none => none

/-- ASCII alphanumeric: `[A-Z0-9]` under `re.IGNORECASE`. -/
def isAlnumA (c : Char) : Bool := c.isAlpha || c.isDigit

/-- `n` alphanumeric characters at the head of the list. -/
def alnum10 : ℕ → List Char → Bool
  | 0, _ => true
  | _ + 1, [] => false
  | n + 1, c :: r => isAlnumA c && alnum10 n r

/-- Does `dp/` (case-insensitive) followed by ten alphanumerics start here?
Mirrors the matching condition of rule 7. -/
def dpAt : List Char → Bool
  | c1 :: c2 :: c3 :: r => c1.toLower == 'd' && c2.toLower == 'p' && c3 == '/' && alnum10 10 r
  | _ => false

/-- Rule 7: `dp/([A-Z0-9]{10})` (the Amazon ASIN rule); the matching condition
is exactly `dpAt`, the capture the ten characters after the slash. -/
def p7At : List Char → Option (List Char)
  | c1 :: c2 :: c3 :: r =>
    if dpAt (c1 :: c2 :: c3 :: r) then some (r.take 10) else none
  | _ => none

/-- Rule 8: `/(\d{5,})[/?]` - at least five digits after a slash, followed by
`/` or `?` (the greedy run cannot backtrack: shortening it leaves a digit next). -/
def p8At : List Char → Option (List Char)
  | [] => none
  | c :: rest =>
    if c = '/' ∧ 5 ≤ (digitRun rest).length then
      match rest.dropWhile Char.isDigit with
      | c2 :: _ => if c2 == '/' || c2 == '?' then some (digitRun rest) else none
      | [] => none
    else none

/-- Rule 9: `item/(\d+)`. -/
def p9At (cs : List Char) : Option (List Char) :=
  match ciPrefix "item/".data cs with
  | some r => if digitRun r ≠ [] then some (digitRun r) else none
  | none => none

/-- Final fallback `(\d{4,})(?=[^/]*$)`: the leftmost position with at least
four digits whose remainder (after the greedy run, hence after the position)
contains no `/`. -/
def fallbackScan : List Char → Option (List Char)
  | [] => none
  | c :: rest =>
    if 4 ≤ (digitRun (c :: rest)).length ∧ '/' ∉ (c :: rest).dropWhile Char.isDigit
    then some (digitRun (c :: rest))
    else fallbackScan rest

/-- The ordered cascade of the nine patterns (rule order as in the source). -/
def skuFromChars (cs : List Char) : Option (List Char) :=
  match scanFirst p1At cs with
  | some v => some v
  | none =>
  match scanFirst p2At cs with
  | some v => some v
  | none =>
  match scanFirst p3At cs with
  | some v => some v
  | none =>
  match scanFirst p4At cs with
  | some v => some v
  | none =>
  match scanFirst p5At cs with
  | some v => some v
  | none =>
  match scanFirst p6At cs with
  | some v => some v
  | none =>
  match scanFirst p7At cs with
  | some v => some v
  | none =>
  match scanFirst p8At cs with
  | some v => some v
  | none =>
  match scanFirst p9At cs with
  | some v => some v
  | none => none

/-- `extract_sku`: empty URL yields `None`; otherwise strip, run the cascade,
then the fallback; `None` when everything fails. -/
def extract_sku (url : String) : Option String :=
  if url = "" then none
  else
    match skuFromChars (trimChars url.data) with
    | some run => some ⟨run⟩
    | none =>
      match fallbackScan (trimChars url.data) with
      | some run => some ⟨run⟩
      | none => none

/-! Specification-side helpers used to state the extractor claims. -/

/-- The segment of the list after its last `/` (the whole list if none). -/
def afterLastSlash : List Char → List Char
  | [] => []
  | c :: rest =>
    if '/' ∈ rest then afterLastSlash rest
    else if c = '/' then rest else c :: rest

/-- The first (leftmost) maximal run of at least four digits, captured to its
full extent. -/
def firstLongRun : List Char → Option (List Char)
  | [] => none
  | c :: rest =>
    if 4 ≤ (digitRun (c :: rest)).length then some (digitRun (c :: rest))
    else firstLongRun rest

/-- Everything before the first `?` (the URL with its query fragment removed). -/
def beforeQuery (l : List Char) : List Char := l.takeWhile (fun c => c != '?')

/-- Accumulator for `lastLongRun`: `acc` is the current digit run reversed,
`best` the last qualifying run seen so far. -/
def lastLongRunAux : List Char → List Char → Option (List Char) → Option (List Char)
  | [], acc, best => if 4 ≤ acc.length then some acc.reverse else best
  | c :: rest, acc, best =>
    if c.isDigit then lastLongRunAux rest (c :: acc) best
    else if 4 ≤ acc.length then lastLongRunAux rest [] (some acc.reverse)
    else lastLongRunAux rest [] best

/-- The last maximal run of at least four digits in the list. -/
def lastLongRun (l : List Char) : Option (List Char) := lastLongRunAux l [] none

/-- Does the list contain a run of at least `n` consecutive digits? -/
def hasDigitRun (n : ℕ) : List Char → Bool
  | [] => decide (n = 0)
  | c :: rest => decide (n ≤ (digitRun (c :: rest)).length) || hasDigitRun n rest

/-! ## Store Fetcher: `get_store_price` and the `STORES` table -/

/-- `RATE_LIMIT_DELAY = 2` seconds. -/
def RATE_LIMIT_DELAY : ℕ := 2

/-- `MAX_RETRIES = 3`. -/
def MAX_RETRIES : ℕ := 3

/-- One entry of the `STORES` configuration table. -/
structure StoreDesc where
  base : String
  search : String
  price_selectors : List String
  name_selectors : List String
  image_selectors : List String
deriving DecidableEq

/-- The static `STORES` table, transcribed from the source. -/
def STORES : List (String × StoreDesc) :=
  [ ("coles",
     { base := "https://www.coles.com.au"
       search := "/search?q={sku}"
       price_selectors :=
         ["span.price__value", ".price-dollars", "[data-testid='price-value']", ".price"]
       name_selectors :=
         ["h1[data-testid='product-title']", ".product-name", "h1.product-title",
          "a[data-testid='product-link']"]
       image_selectors :=
         ["img[data-testid='product-image']", ".product-image img",
          ".product-tile__image img", "img.product-image"] }),
    ("woolworths",
     { base := "https://www.woolworths.com.au"
       search := "/shop/search/products?searchTerm={sku}"
       price_selectors :=
         ["strong.price", ".price-value", "[data-testid='price']", ".price"]
       name_selectors :=
         ["a.product-tile--title-link", ".product-title", "h3.product-name",
          ".product-tile__title"]
       image_selectors :=
         [".product-tile__image img", ".product-image img",
          "img[data-testid='product-image']", ".tile-image img"] }),
    ("amazon",
     { base := "https://www.amazon.com.au"
       search := "/s?k={sku}"
       price_selectors :=
         [".a-price-whole", ".a-price.a-text-price.a-size-medium.apexPriceToPay",
          "span.a-price-range", ".a-price .a-offscreen"]
       name_selectors :=
         ["h2 a.a-link-normal span", "span[data-component-type='s-product-image'] img",
          ".s-size-mini .s-link-style", "h2.a-size-mini span"]
       image_selectors :=
         [".s-image", "img[data-image-latency='s-product-image']",
          ".a-section img.s-image", ".s-product-image-container img"] }),
    ("ebay",
     { base := "https://www.ebay.com.au"
       search := "/sch/i.html?_nkw={sku}"
       price_selectors :=
         [".s-item__price", ".notranslate", ".s-item__detail--primary .s-item__price"]
       name_selectors :=
         [".s-item__title", "h3.s-item__title"]
       image_selectors :=
         [".s-item__image img", "img.s-item__image", ".s-item__wrapper img"] }),
    ("jbhifi",
     { base := "https://www.jbhifi.com.au"
       search := "/search?q={sku}"
       price_selectors :=
         ["span[class*='PriceTag_actual']", "span.price", ".price-value",
          ".product-price", ".price-current"]
       name_selectors :=
         ["a.product-tile__title", ".product-name", "h3.product-title",
          ".product-title a"]
       image_selectors :=
         [".product-tile__image img", ".product-image img", "img.product-img"] }),
    ("officeworks",
     { base := "https://www.officeworks.com.au"
       search := "/shop/search?q={sku}"
       price_selectors :=
         ["span.price__value", ".price-current", ".product-price", ".price"]
       name_selectors :=
         ["a.product-tile__title", ".product-name", ".product-title"]
       image_selectors :=
         [".product-tile__image img", ".product-image img", "img.product-img"] }),
    ("harveynorman",
     { base := "https://www.harveynorman.com.au"
       search := "/search?q={sku}"
       price_selectors :=
         ["span.price", ".price-value", ".product-price", ".price-current"]
       name_selectors :=
         ["h4.product-name a", ".product-title", ".product-name"]
       image_selectors :=
         [".product-image img", "img.product-img", ".product-tile__image img"] }) ]

/-- `store_key in STORES` plus `STORES[store_key]`. -/
def lookupStore (k : String) : Option StoreDesc :=
  (STORES.find? (fun p => p.1 == k)).map (fun p => p.2)

/-- `"...{sku}...".format(sku=sku)`: substitute every `\x7bsku\x7d` occurrence. -/
def substSku (sku : List Char) : List Char → List Char
  | '{' :: 's' :: 'k' :: 'u' :: '}' :: rest => sku ++ substSku sku rest
  | c :: rest => c :: substSku sku rest
  | [] => []

/-- `s.startswith('http')`. -/
def startsWithHttp (s : String) : Bool :=
  match s.data with
  | 'h' :: 't' :: 't' :: 'p' :: _ => true
  | _ => false

/-- `urllib.parse.urljoin`, specialised to the shapes the program produces:
every relative reference in the table and in scraped `src` attributes is an
absolute path joined onto an origin-only base, for which the RFC 3986
resolution is plain concatenation. -/
def urljoin (base rel : String) : String :=
  if startsWithHttp rel then rel else base ++ rel

/-- `store_key.capitalize()`: first character upper-cased, the rest lower-cased. -/
def capitalize (s : String) : String :=
  match s.data with
  | [] => ""
  | c :: rest => ⟨c.toUpper :: rest.map Char.toLower⟩

/-- Python's `name[:100]`. -/
def take100 (s : String) : String := ⟨s.data.take 100⟩

/-- A fetched, parsed HTML document, abstracted to what `get_store_price`
asks of it: for each selector, the text of the first matching element
(`none` when `select_one` finds nothing) and likewise the `src` of images. -/
structure Page where
  priceText : String → Option String
  nameText : String → Option String
  imageSrc : String → Option String

/-- Outcome of one `requests.get` attempt (plus parsing): a transport-level
`requests.RequestException`, any other unexpected exception, or a parsed page. -/
inductive FetchOutcome
  | transportErr
  | otherErr
  | ok (page : Page)

/-- The `result` dict built on a successful scrape (`available=True`). -/
structure PriceRecord where
  price : ℚ
  name : String
  image : Option String
  url : String
  store : String
  last_checked : String
  available : Bool
deriving DecidableEq

/-- The `(data, error)` pair returned by `get_store_price`:
`noStore`/`noPrice` are the `(None, message)` returns, `found` is
`(result, None)` with `available=True`, and `unavailable` is the
`({'store':…,'available':False,'error':…}, None)` return. -/
inductive FetchResult
  | noStore (msg : String)
  | noPrice (msg : String)
  | found (r : PriceRecord)
  | unavailable (store : String) (error : String)
deriving DecidableEq

/-- Does the result carry a PriceRecord with `available=false`? (Used to state
the error-encoding claims.) -/
def isUnavailableRecord : FetchResult → Bool
  | .unavailable _ _ => true
  | .found r => !r.available
  | _ => false

/-- Truthiness of the Python `price` variable (`None` and `0.0` are falsy). -/
def pTruthy : Option ℚ → Bool
  | none => false
  | some q => decide (q ≠ 0)

/-- The price selector loop: walk the ordered selectors, remembering the last
element text tried; stop at the first truthy parsed price. Returns the final
`(price, price_text)` pair. -/
def priceScan (page : Page) : List String → Option ℚ → String → Option ℚ × String
  | [], price, text => (price, text)
  | s :: rest, price, text =>
    match page.priceText s with
    | none => priceScan page rest price text
    | some t =>
      let p := clean_price_text t
      if pTruthy p then (p, t) else priceScan page rest p t

/-- The name selector loop: remember the last element text; stop at the first
text longer than three characters. -/
def nameScan (page : Page) : List String → Option String → Option String
  | [], n => n
  | s :: rest, n =>
    match page.nameText s with
    | none => nameScan page rest n
    | some t => if 3 < t.data.length then some t else nameScan page rest (some t)

/-- The image selector loop: first element with a truthy `src`, resolved to an
absolute URL against the store base. -/
def imageScan (page : Page) (base : String) : List String → Option String
  | [] => none
  | s :: rest =>
    match page.imageSrc s with
    | some src => if src ≠ "" then some (urljoin base src) else imageScan page base rest
    | none => imageScan page base rest

/-- The body of a successful attempt: selector resolution, the mandatory-price
check, name fallback and truncation, record construction and the rate-limit
sleep before returning. -/
def finishPage (store : StoreDesc) (storeKey sku searchUrl now : String) (page : Page)
    (sleeps : List ℕ) : FetchResult × List ℕ :=
  match (priceScan page store.price_selectors none "").1 with
  | none =>
    (.noPrice ("No price found (tried: " ++ (priceScan page store.price_selectors none "").2
       ++ ")"), sleeps)
  | some q =>
    if q = 0 then
      (.noPrice ("No price found (tried: " ++ (priceScan page store.price_selectors none "").2
         ++ ")"), sleeps)
    else
      let nm :=
        match nameScan page store.name_selectors none with
        | none => "Product " ++ sku
        | some t => if t = "" then "Product " ++ sku else t
      (.found { price := q
                name := take100 nm
                image := imageScan page store.base store.image_selectors
                url := searchUrl
                store := capitalize storeKey
                last_checked := now
                available := true },
       sleeps ++ [RATE_LIMIT_DELAY])

/-- The `for attempt in range(retries)` loop. `fuel` counts the remaining
iterations (`attempt + fuel = retries` at every call); `sleeps` logs every
`time.sleep` duration in seconds. A transport error sleeps `2 ** attempt`
unless this was the final attempt; any other exception breaks; exhausting the
range returns the `available=False` record. -/
def attemptLoop (store : StoreDesc) (storeKey sku searchUrl now : String) (retries : ℕ)
    (outcomes : ℕ → FetchOutcome) : ℕ → ℕ → List ℕ → FetchResult × List ℕ
  | _, 0, sleeps =>
    (.unavailable (capitalize storeKey) ("Failed after " ++ toString retries ++ " attempts"),
     sleeps)
  | attempt, fuel + 1, sleeps =>
    match outcomes attempt with
    | .ok page => finishPage store storeKey sku searchUrl now page sleeps
    | .otherErr =>
      (.unavailable (capitalize storeKey) ("Failed after " ++ toString retries ++ " attempts"),
       sleeps)
    | .transportErr =>
      if attempt + 1 < retries then
        attemptLoop store storeKey sku searchUrl now retries outcomes
          (attempt + 1) fuel (sleeps ++ [2 ^ attempt])
      else
        attemptLoop store storeKey sku searchUrl now retries outcomes
          (attempt + 1) fuel sleeps

/-- `get_store_price(store_key, sku, retries)`: unknown store short-circuits to
`(None, "Unknown store: …")`; otherwise build the search URL and run the
attempt loop. Also returns the log of sleep durations. -/
def get_store_price (storeKey sku : String) (retries : ℕ) (outcomes : ℕ → FetchOutcome)
    (now : String) : FetchResult × List ℕ :=
  match lookupStore storeKey with
  | none => (.noStore ("Unknown store: " ++ storeKey), [])
  | some store =>
    let searchUrl := urljoin store.base ⟨substSku sku.data store.search.data⟩
    attemptLoop store storeKey sku searchUrl now retries outcomes 0 retries []

/-! ## Monitoring Loop: `start_monitoring` -/

/-- Exceptions a single alert's processing can raise. -/
inductive PyErr
  | keyErr (k : String)
  | zeroDiv
deriving DecidableEq

/-- An alert record as the monitoring loop reads it. Optional fields model
dict keys that may be absent; `notified` models `alert.get('notified')`
truthiness, `trigger_time` models presence of the `'trigger_time'` key with
its parsed timestamp (seconds). -/
structure Alert where
  sku : Option String
  retail_price : Option ℚ
  discount_rate : Option ℚ
  target_price : Option ℚ
  stores : List String
  notified : Bool
  trigger_time : Option ℚ
  deals_found : List PriceRecord
deriving DecidableEq

/-- `alert[k]`: raises `KeyError` when the key is missing. -/
def getKey {α : Type} (v : Option α) (k : String) : Except PyErr α :=
  match v with
  | some x => .ok x
  | none => .error (.keyErr k)

/-- One field of the Discord embed, built per matching store. The Python code
interpolates these numbers into a display string; the payload content is kept
structured here. -/
structure NotifField where
  store : String
  name50 : String
  price : ℚ
  savings : ℚ
  percentage : ℚ
  url : String
deriving DecidableEq

/-- The environment the sweep runs in: the store fetcher (the `data` part of
`get_store_price`'s return), the notification gateway outcome
(`send_discord_notification` returns a boolean and never raises), and the
current time in seconds (`datetime.now()`). -/
structure MonEnv where
  fetch : String → String → FetchResult
  send : List NotifField → Bool
  now : ℚ

/-- `timedelta(days=7)` in seconds. -/
def SEVEN_DAYS : ℚ := 604800

/-- The threshold expression
`alert.get('target_price', alert['retail_price'] * (1 - alert['discount_rate']/100))`.
Python evaluates the default argument eagerly, so both `retail_price` and
`discount_rate` are indexed before `get` consults `target_price`. -/
def alertThreshold (a : Alert) : Except PyErr ℚ :=
  match a.retail_price with
  | none => .error (.keyErr "retail_price")
  | some r =>
    match a.discount_rate with
    | none => .error (.keyErr "discount_rate")
    | some d => .ok (a.target_price.getD (r * (1 - d / 100)))

/-- The store loop of a pending alert: fetch each store, and collect every
available record whose price is at or below the threshold. -/
def collectMatches (env : MonEnv) (a : Alert) : List String → List PriceRecord →
    Except PyErr (List PriceRecord)
  | [], acc => .ok acc
  | st :: rest, acc =>
    match a.sku with
    | none => .error (.keyErr "sku")
    | some sk =>
      match env.fetch st sk with
      | .found rec =>
        if rec.available then
          match alertThreshold a with
          | .error e => .error e
          | .ok thr =>
            if rec.price ≤ thr then collectMatches env a rest (acc ++ [rec])
            else collectMatches env a rest acc
        else collectMatches env a rest acc
      | .unavailable _ _ => collectMatches env a rest acc
      | .noStore _ => collectMatches env a rest acc
      | .noPrice _ => collectMatches env a rest acc

/-- The embed fields: one per matching store with
`savings = retail_price - price` and `percentage = savings / retail_price * 100`
(a zero retail price would raise `ZeroDivisionError`). -/
def buildFields (r : ℚ) : List PriceRecord → Except PyErr (List NotifField)
  | [] => .ok []
  | m :: rest =>
    if r = 0 then .error .zeroDiv
    else
      match buildFields r rest with
      | .error e => .error e
      | .ok tl =>
        .ok ({ store := m.store
               name50 := ⟨m.name.data.take 50⟩
               price := m.price
               savings := r - m.price
               percentage := (r - m.price) / r * 100
               url := m.url } :: tl)

/-- Processing of one alert within a sweep. Notified alerts only check the
re-arm condition (`now - trigger_time > 7 days`, strict) and skip all
fetching; pending alerts collect matches and, when there is at least one,
notify - flipping `notified`, stamping `trigger_time` and storing
`deals_found` exactly when the gateway send returns success. -/
def processAlert (env : MonEnv) (a : Alert) : Except PyErr Alert :=
  if a.notified then
    match a.trigger_time with
    | some t =>
      if SEVEN_DAYS < env.now - t then .ok { a with notified := false } else .ok a
    | none => .ok a
  else
    match collectMatches env a a.stores [] with
    | .error e => .error e
    | .ok ms =>
      if ms = [] then .ok a
      else
        match a.retail_price with
        | none => .error (.keyErr "retail_price")
        | some r =>
          match buildFields r ms with
          | .error e => .error e
          | .ok flds =>
            if env.send flds then
              .ok { a with notified := true, trigger_time := some env.now, deals_found := ms }
            else .ok a

/-- The `for alert in alerts` body: build `updated_alerts` in order; the first
exception aborts the whole loop (there is no per-alert handler). -/
def sweepBody (env : MonEnv) : List Alert → Except PyErr (List Alert)
  | [] => .ok []
  | a :: rest =>
    match processAlert env a with
    | .error e => .error e
    | .ok a' =>
      match sweepBody env rest with
      | .error e => .error e
      | .ok rest' => .ok (a' :: rest')

/-- State of the `alerts.json` file: readable with contents, missing, or
present but not decodable as JSON. -/
inductive AlertsFile
  | ok (alerts : List Alert)
  | missing
  | corrupt
deriving DecidableEq

/-- `load_alerts`: `FileNotFoundError` and `json.JSONDecodeError` are caught
and an empty list is returned. -/
def load_alerts : AlertsFile → List Alert
  | .ok l => l
  | .missing => []
  | .corrupt => []

/-- `save_alerts`: rewrite the file with the given collection. -/
def save_alerts (l : List Alert) : AlertsFile := .ok l

/-- One sweep of `start_monitoring`'s `while True` body: load, process every
alert, save. The surrounding `try`/`except` catches any exception, leaving the
file untouched for that sweep (the process then sleeps and retries). -/
def runSweep (env : MonEnv) (f : AlertsFile) : AlertsFile :=
  match sweepBody env (load_alerts f) with
  | .ok upd => save_alerts upd
  | .error _ => f

/-- Did the sweep reach `save_alerts`? -/
def sweepSaved (env : MonEnv) (f : AlertsFile) : Bool :=
  match sweepBody env (load_alerts f) with
  | .ok _ => true
  | .error _ => false

/-- Equality of `Except` results is decidable (used to evaluate the model at
concrete inputs). -/
instance {ε α : Type} [DecidableEq ε] [DecidableEq α] : DecidableEq (Except ε α) := fun x y =>
  match x, y with
  | .error a, .error b => decidable_of_iff (a = b) (by simp)
  | .ok a, .ok b => decidable_of_iff (a = b) (by simp)
  | .error _, .ok _ => .isFalse (by simp)
  | .ok _, .error _ => .isFalse (by simp)

/-! ## Concrete scenarios the claim theorems are evaluated at -/

/-- An available store record at the given price. -/
def availRec (p : ℚ) : PriceRecord :=
  { price := p, name := "Widget", image := none, url := "u", store := "Coles",
    last_checked := "t", available := true }

/-- An environment whose fetcher always reports an available 40-dollar record,
whose gateway always succeeds, and whose clock reads past the re-arm window. -/
def envC : MonEnv :=
  { fetch := fun _ _ => .found (availRec 40), send := fun _ => true, now := 700000 }

/-- A pending alert with an explicit target but no `retail_price` key. -/
def aBad : Alert :=
  { sku := some "1", retail_price := none, discount_rate := none, target_price := some 50,
    stores := ["coles"], notified := false, trigger_time := none, deals_found := [] }

/-- A notified alert whose trigger is old enough to re-arm at `envC.now`. -/
def aGood : Alert :=
  { sku := some "2", retail_price := some 100, discount_rate := some 20, target_price := none,
    stores := ["coles"], notified := true, trigger_time := some 0, deals_found := [] }

/-- A pending alert exactly as the submission flow creates one: explicit
`target_price` and `retail_price`, **no** `discount_rate` key. -/
def aTP : Alert :=
  { sku := some "111", retail_price := some 100, discount_rate := none, target_price := some 50,
    stores := ["coles"], notified := false, trigger_time := none, deals_found := [] }

/-- A notified alert triggered at time 0. -/
def aSeven : Alert :=
  { sku := some "7", retail_price := some 100, discount_rate := some 20, target_price := none,
    stores := ["coles"], notified := true, trigger_time := some 0, deals_found := [] }

/-- A clock reading exactly seven days after `aSeven`'s trigger. -/
def envSeven : MonEnv :=
  { fetch := fun _ _ => .noStore "", send := fun _ => false, now := 604800 }

/-- A clock reading seven days and one second after `aSeven`'s trigger. -/
def envRearm : MonEnv :=
  { fetch := fun _ _ => .noStore "", send := fun _ => false, now := 604801 }

/-- A pending alert with an explicit 80-dollar target on a 100-dollar retail
price, monitoring one store. -/
def a6 : Alert :=
  { sku := some "123", retail_price := some 100, discount_rate := some 20,
    target_price := some 80,
    stores := ["coles"], notified := false, trigger_time := none, deals_found := [] }

/-- Environment that finds a 75-dollar deal and whose gateway send succeeds. -/
def env6 : MonEnv :=
  { fetch := fun _ _ => .found (availRec 75), send := fun _ => true, now := 1000 }

/-- A page on which no selector matches anything. -/
def pageEmpty : Page :=
  { priceText := fun _ => none, nameText := fun _ => none, imageSrc := fun _ => none }

/-- A page whose only hit is Coles' first price selector with text `$20`. -/
def page0 : Page :=
  { priceText := fun s => if s = "span.price__value" then some "$20" else none
    nameText := fun _ => none
    imageSrc := fun _ => none }

/-- Transport oracle failing every attempt. -/
def allFail : ℕ → FetchOutcome := fun _ => .transportErr

/-- Oracle delivering the blank page on every attempt. -/
def okEmpty : ℕ → FetchOutcome := fun _ => .ok pageEmpty

/-- Oracle delivering `page0` on every attempt. -/
def ok0 : ℕ → FetchOutcome := fun _ => .ok page0

/-- A fallback `StoreDesc` for total lookups in the witnesses. -/
def emptyStore : StoreDesc := { base := "", search := "", price_selectors := [],
                                name_selectors := [], image_selectors := [] }

/-- The Coles descriptor, recovered from the table. -/
def colesStore : StoreDesc := (lookupStore "coles").getD emptyStore

/-- The Woolworths descriptor, recovered from the table. -/
def wwStore : StoreDesc := (lookupStore "woolworths").getD emptyStore

/-- The record `get_store_price` builds from `page0` for Coles. -/
def rec0 : PriceRecord :=
  { price := 20, name := "Product 123", image := none,
    url := "https://www.coles.com.au/search?q=123", store := "Coles",
    last_checked := "t0", available := true }

/-- URL whose only pattern hit is the case-insensitive ASIN rule. -/
def urlA : String := "https://x.com/dp/abcdefghij"

/-- URL whose only pattern hit is `sku=` with a two-digit identifier. -/
def urlB : String := "https://shop.example/cart?sku=12"

/-- URL with two four-digit runs in its final path segment. -/
def urlF : String := "https://ex.org/a/1234x5678"

/-- URL whose only long digit run sits inside the trailing query fragment. -/
def urlQ : String := "a/x?b=12345"

/-! ## Helper lemmas -/

/-- `buildFields` never raises when the retail price is nonzero. -/
theorem buildFields_ok (r : ℚ) (hr : r ≠ 0) :
    ∀ ms : List PriceRecord, ∃ l, buildFields r ms = .ok l := by
  intro ms
  induction ms with
  | nil => exact ⟨[], rfl⟩
  | cons m rest ih =>
    obtain ⟨tl, htl⟩ := ih
    exact ⟨{ store := m.store, name50 := ⟨m.name.data.take 50⟩, price := m.price,
             savings := r - m.price, percentage := (r - m.price) / r * 100,
             url := m.url } :: tl,
           by simp [buildFields, hr, htl]⟩

/-- A notified alert with a stamped trigger time: processing only applies the
re-arm test. -/
theorem processAlert_notified (env : MonEnv) (a : Alert) (t : ℚ)
    (hn : a.notified = true) (ht : a.trigger_time = some t) :
    processAlert env a =
      .ok (if SEVEN_DAYS < env.now - t then { a with notified := false } else a) := by
  simp only [processAlert, hn, if_true, ht]
  split <;> rfl

/-- An error while processing any member alert makes the whole loop body error. -/
theorem sweepBody_error_of_mem (env : MonEnv) (a : Alert) (e : PyErr)
    (he : processAlert env a = .error e) :
    ∀ l : List Alert, a ∈ l → ∃ e2, sweepBody env l = .error e2 := by
  intro l
  induction l with
  | nil => intro h; cases h
  | cons b rest ih =>
    intro hmem
    rcases List.mem_cons.mp hmem with hb | hr
    · subst hb
      exact ⟨e, by simp [sweepBody, he]⟩
    · cases hp : processAlert env b with
      | error e0 => exact ⟨e0, by simp [sweepBody, hp]⟩
      | ok b' =>
        obtain ⟨e2, h2⟩ := ih hr
        exact ⟨e2, by simp [sweepBody, hp, h2]⟩

/-! ## Claims C1-C3, C5, C6: the Monitoring Loop -/

/-- **C1 counterexample.** The claim says a failure on one alert leaves every
other alert processed and saved. Concretely: `aBad` raises `KeyError`, `aGood`
would be re-armed by processing, yet the sweep saves nothing - the file keeps
its old contents, `aGood` still notified. -/
theorem alert_failure_cex :
    processAlert envC aGood = .ok { aGood with notified := false } ∧
    ({ aGood with notified := false } : Alert) ≠ aGood ∧
    runSweep envC (.ok [aBad, aGood]) = .ok [aBad, aGood] ∧
    sweepSaved envC (.ok [aBad, aGood]) = false := by
  have h : processAlert envC aGood = .ok { aGood with notified := false } := by
    rw [processAlert_notified envC aGood 0 rfl rfl,
        if_pos (by norm_num [envC, SEVEN_DAYS])]
  exact ⟨h, by decide, by decide, by decide⟩

/-- **C1 (amended).** A failure raised while processing one alert is caught
only by the sweep-level handler: the process survives to the next sweep, but
the current sweep is aborted - the remaining alerts are not processed, no
snapshot is saved, and the persisted collection keeps its previous contents. -/
theorem alert_failure_aborts_sweep (env : MonEnv) (alerts : List Alert) (a : Alert) (e : PyErr)
    (ha : a ∈ alerts) (he : processAlert env a = .error e) :
    (∃ e2, sweepBody env alerts = .error e2) ∧
    runSweep env (.ok alerts) = .ok alerts ∧ sweepSaved env (.ok alerts) = false := by
  obtain ⟨e2, h2⟩ := sweepBody_error_of_mem env a e he alerts ha
  exact ⟨⟨e2, h2⟩, by simp [runSweep, load_alerts, h2], by simp [sweepSaved, load_alerts, h2]⟩

/-- **C1 witness.** The amended statement evaluated at the concrete scenario. -/
theorem alert_failure_witness :
    runSweep envC (.ok [aBad]) = .ok [aBad] ∧ sweepSaved envC (.ok [aBad]) = false := by
  have h := alert_failure_aborts_sweep envC [aBad] aBad (.keyErr "retail_price")
    (by simp) (by decide)
  exact ⟨h.2.1, h.2.2⟩

/-- **C2 (code bug).** `aTP` carries an explicit `target_price`, yet the
threshold expression raises `KeyError('discount_rate')`, because Python
evaluates `alert.get`'s default argument eagerly; the whole alert (and with it
the sweep) fails instead of being evaluated against the explicit target. -/
theorem eager_default_key_error :
    aTP.target_price = some 50 ∧
    alertThreshold aTP = .error (.keyErr "discount_rate") ∧
    processAlert envC aTP = .error (.keyErr "discount_rate") := by decide

/-- **C3 counterexample.** The claim says a load failure abandons the sweep
without modifying the persisted collection. Concretely: on an unreadable
file the sweep still runs and rewrites the store with an empty list. -/
theorem load_failure_cex :
    runSweep envC .corrupt = .ok [] ∧ (AlertsFile.ok [] ≠ .corrupt) ∧
    sweepSaved envC .corrupt = true := by decide

/-- **C3 (amended).** When the alerts file is missing or unreadable as JSON,
`load_alerts` swallows the error and returns an empty list; the sweep is not
abandoned - it proceeds over the empty collection and saves it, replacing the
persisted contents; the failure never propagates as a process crash. -/
theorem load_failure_swallowed (env : MonEnv) :
    load_alerts .missing = [] ∧ load_alerts .corrupt = [] ∧
    runSweep env .missing = .ok [] ∧ runSweep env .corrupt = .ok [] ∧
    sweepSaved env .missing = true ∧ sweepSaved env .corrupt = true := by
  refine ⟨rfl, rfl, ?_, ?_, ?_, ?_⟩ <;>
    simp [runSweep, sweepSaved, load_alerts, sweepBody, save_alerts]

/-- **C5 counterexample.** At an elapsed time of exactly seven days the claim
requires the alert to re-arm, but the code's comparison is strict: the alert
stays notified. -/
theorem rearm_boundary_cex :
    envSeven.now - 0 = SEVEN_DAYS ∧ aSeven.notified = true ∧
    aSeven.trigger_time = some 0 ∧
    processAlert envSeven aSeven = .ok aSeven ∧
    processAlert envSeven aSeven ≠ .ok { aSeven with notified := false } := by
  have h : processAlert envSeven aSeven = .ok aSeven := by
    rw [processAlert_notified envSeven aSeven 0 rfl rfl,
        if_neg (by norm_num [envSeven, SEVEN_DAYS])]
  refine ⟨by norm_num [envSeven, SEVEN_DAYS], rfl, rfl, h, ?_⟩
  rw [h]
  decide

/-- **C5 (amended).** A notified alert with a stamped trigger time re-arms
exactly when the elapsed time is strictly greater than seven days; otherwise
it stays notified. In both cases the result is independent of the fetcher and
gateway - no store fetches influence a notified alert's sweep. -/
theorem rearm_strictly_after_seven_days (env : MonEnv) (a : Alert) (t : ℚ)
    (hn : a.notified = true) (ht : a.trigger_time = some t) :
    processAlert env a =
      .ok (if SEVEN_DAYS < env.now - t then { a with notified := false } else a) ∧
    (∀ env2 : MonEnv, env2.now = env.now → processAlert env2 a = processAlert env a) := by
  refine ⟨processAlert_notified env a t hn ht, ?_⟩
  intro env2 h2
  rw [processAlert_notified env2 a t hn ht, processAlert_notified env a t hn ht, h2]

/-- **C5 witness.** Seven days plus one second later the alert re-arms. -/
theorem rearm_witness :
    processAlert envRearm aSeven = .ok { aSeven with notified := false } := by
  have h := (rearm_strictly_after_seven_days envRearm aSeven 0 rfl rfl).1
  rwa [if_pos (by norm_num [envRearm, SEVEN_DAYS])] at h

/-- **C6.** A pending alert with at least one matching record is marked
notified with `trigger_time` stamped if and only if the gateway send succeeds;
a failed send leaves the alert record unchanged, pending for the next sweep. -/
theorem pending_notify_iff_send (env : MonEnv) (a : Alert) (ms : List PriceRecord) (r : ℚ)
    (h1 : a.notified = false) (h2 : collectMatches env a a.stores [] = .ok ms)
    (h3 : ms ≠ []) (h4 : a.retail_price = some r) (h5 : r ≠ 0) :
    ∃ flds, buildFields r ms = .ok flds ∧
      (env.send flds = true →
        processAlert env a =
          .ok { a with notified := true, trigger_time := some env.now, deals_found := ms }) ∧
      (env.send flds = false → processAlert env a = .ok a) := by
  obtain ⟨flds, hb⟩ := buildFields_ok r h5 ms
  refine ⟨flds, hb, ?_, ?_⟩ <;> intro hs <;>
    simp [processAlert, h1, h2, h3, h4, hb, hs]

/-- **C6 witness.** The 75-dollar deal against an 80-dollar threshold notifies
when the send succeeds. -/
theorem pending_notify_witness :
    processAlert env6 a6 =
      .ok { a6 with notified := true, trigger_time := some env6.now,
                    deals_found := [availRec 75] } := by
  obtain ⟨flds, hb, hyes, hno⟩ :=
    pending_notify_iff_send env6 a6 [availRec 75] 100 rfl (by decide) (by decide) rfl (by decide)
  exact hyes rfl

/-! ## Claims C4, C9, C10: the Store Fetcher -/

/-- When every remaining attempt fails at transport level, the loop returns the
`available=False` record and sleeps `2 ^ attempt` seconds after every attempt
except the last. -/
theorem attemptLoop_allFail (st : StoreDesc) (k sku u now : String) (retries : ℕ)
    (o : ℕ → FetchOutcome) :
    ∀ (fuel attempt : ℕ) (sleeps : List ℕ), attempt + fuel = retries →
      (∀ i, attempt ≤ i → i < retries → o i = .transportErr) →
      attemptLoop st k sku u now retries o attempt fuel sleeps =
        (.unavailable (capitalize k) ("Failed after " ++ toString retries ++ " attempts"),
         sleeps ++ (List.range' attempt (fuel - 1)).map (fun i => 2 ^ i)) := by
  intro fuel
  induction fuel with
  | zero =>
    intro attempt sleeps _ _
    simp [attemptLoop]
  | succ f ih =>
    intro attempt sleeps hsum ho
    have hlt : attempt < retries := by omega
    have hoa : o attempt = .transportErr := ho attempt le_rfl hlt
    cases f with
    | zero =>
      have hnl : ¬ (attempt + 1 < retries) := by omega
      simp [attemptLoop, hoa, hnl]
    | succ f2 =>
      have hlt2 : attempt + 1 < retries := by omega
      rw [attemptLoop, hoa]
      simp only [if_pos hlt2]
      rw [ih (attempt + 1) (sleeps ++ [2 ^ attempt]) (by omega)
            (fun i h1 h2 => ho i (by omega) h2)]
      have hr : List.range' attempt (f2 + 2 - 1) = attempt :: List.range' (attempt + 1) f2 :=
        List.range'_succ attempt f2 1
      rw [hr]
      simp [List.append_assoc]

/-- **C9.** With transport failing on each of the three attempts, the fetch
makes its attempts, sleeps `2 ^ 0` then `2 ^ 1` seconds (strictly increasing)
between consecutive attempts, and returns an unavailable record carrying an
error message instead of raising. -/
theorem retry_backoff_exhaustion (storeKey sku now : String) (st : StoreDesc)
    (o : ℕ → FetchOutcome)
    (hs : lookupStore storeKey = some st) (ho : ∀ i, i < 3 → o i = .transportErr) :
    get_store_price storeKey sku 3 o now =
      (.unavailable (capitalize storeKey) "Failed after 3 attempts", [2 ^ 0, 2 ^ 1]) ∧
    (2 : ℕ) ^ 0 < 2 ^ 1 := by
  constructor
  · simp only [get_store_price, hs]
    rw [attemptLoop_allFail st storeKey sku _ now 3 o 3 0 [] rfl (fun i _ h2 => ho i h2)]
    have hstr : ("Failed after " ++ toString 3 ++ " attempts" : String) =
        "Failed after 3 attempts" := by decide
    have hlist : (([] : List ℕ) ++ (List.range' 0 (3 - 1)).map (fun i => 2 ^ i)) =
        [2 ^ 0, 2 ^ 1] := by decide
    rw [hstr, hlist]
  · decide

/-- **C9 witness.** The statement evaluated at Coles with an always-failing
transport oracle. -/
theorem retry_backoff_witness :
    get_store_price "coles" "42" 3 allFail "t1" =
      (.unavailable "Coles" "Failed after 3 attempts", [1, 2]) := by
  have h := (retry_backoff_exhaustion "coles" "42" "t1" colesStore allFail
    (by decide) (fun i _ => rfl)).1
  rw [h]
  decide

/-- **C4 counterexample.** The claim says all three failure outcomes come back
as an `available=false` PriceRecord. Concretely: the unknown-store and
no-price-found outcomes are returned as a null record with the reason in the
error slot - only transport exhaustion produces an `available=false` record. -/
theorem failure_encoding_cex :
    isUnavailableRecord (get_store_price "bogus" "1" 3 allFail "t").1 = false ∧
    (get_store_price "bogus" "1" 3 allFail "t").1 = .noStore "Unknown store: bogus" ∧
    isUnavailableRecord (get_store_price "coles" "1" 3 okEmpty "t").1 = false ∧
    (get_store_price "coles" "1" 3 okEmpty "t").1 = .noPrice "No price found (tried: )" ∧
    isUnavailableRecord (get_store_price "coles" "1" 3 allFail "t").1 = true := by decide

/-- **C4 (amended).** `get_store_price` returns all its failure outcomes
without raising, but in two encodings: an unknown store and a page with no
successful price selector come back as a null record with a descriptive reason
string (`(None, message)` in the source); only transport failure after
exhausting the retries comes back as a PriceRecord with `available=false` and
an error message. -/
theorem failure_encoding :
    (∀ (k sku : String) (r : ℕ) (o : ℕ → FetchOutcome) (now : String),
       lookupStore k = none →
       get_store_price k sku r o now = (.noStore ("Unknown store: " ++ k), [])) ∧
    (∀ (k sku now : String) (st : StoreDesc) (r : ℕ) (o : ℕ → FetchOutcome) (page : Page),
       lookupStore k = some st → o 0 = .ok page →
       pTruthy (priceScan page st.price_selectors none "").1 = false →
       get_store_price k sku (r + 1) o now =
         (.noPrice ("No price found (tried: " ++
            (priceScan page st.price_selectors none "").2 ++ ")"), [])) ∧
    (∀ (k sku now : String) (st : StoreDesc) (o : ℕ → FetchOutcome),
       lookupStore k = some st → (∀ i, i < 3 → o i = .transportErr) →
       get_store_price k sku 3 o now =
         (.unavailable (capitalize k) "Failed after 3 attempts", [2 ^ 0, 2 ^ 1])) := by
  refine ⟨?_, ?_, ?_⟩
  · intro k sku r o now hk
    simp only [get_store_price, hk]
  · intro k sku now st r o page hs h0 hp
    simp only [get_store_price, hs]
    rw [attemptLoop, h0]
    cases hq : (priceScan page st.price_selectors none "").1 with
    | none => simp [finishPage, hq]
    | some q =>
      have hq0 : q = 0 := by
        rw [hq] at hp
        simpa [pTruthy] using hp
      simp [finishPage, hq, hq0]
  · intro k sku now st o hs ho
    simp only [get_store_price, hs]
    rw [attemptLoop_allFail st k sku _ now 3 o 3 0 [] rfl (fun i _ h2 => ho i h2)]
    have hstr : ("Failed after " ++ toString 3 ++ " attempts" : String) =
        "Failed after 3 attempts" := by decide
    have hlist : (([] : List ℕ) ++ (List.range' 0 (3 - 1)).map (fun i => 2 ^ i)) =
        [2 ^ 0, 2 ^ 1] := by decide
    rw [hstr, hlist]

/-- **C4 witness.** The three cases evaluated at concrete stores and pages. -/
theorem failure_encoding_witness :
    get_store_price "bogus" "7" 3 allFail "t2" = (.noStore "Unknown store: bogus", []) ∧
    get_store_price "woolworths" "7" 1 okEmpty "t2" =
      (.noPrice "No price found (tried: )", []) ∧
    get_store_price "woolworths" "7" 3 allFail "t2" =
      (.unavailable "Woolworths" "Failed after 3 attempts", [1, 2]) := by
  obtain ⟨h1, h2, h3⟩ := failure_encoding
  refine ⟨?_, ?_, ?_⟩
  · rw [h1 "bogus" "7" 3 allFail "t2" (by decide)]
    decide
  · rw [h2 "woolworths" "7" "t2" wwStore 0 okEmpty pageEmpty (by decide) rfl (by decide)]
    decide
  · rw [h3 "woolworths" "7" "t2" wwStore allFail (by decide) (fun i _ => rfl)]
    decide

/-- The fractional part of a parsed price is nonnegative. -/
theorem fracVal_nonneg (l : List Char) : 0 ≤ fracVal l := by
  unfold fracVal
  positivity

/-- Every value the number matcher produces is nonnegative. -/
theorem firstNumberMatch_nonneg : ∀ (l : List Char) (q : ℚ),
    firstNumberMatch l = some q → 0 ≤ q := by
  intro l
  induction l with
  | nil => intro q h; cases h
  | cons c rest ih =>
    intro q h
    by_cases hc : c.isDigit
    · simp only [firstNumberMatch, if_pos hc] at h
      split at h
      · split at h
        · injection h with h
          rw [← h]
          positivity
        · injection h with h
          rw [← h]
          exact add_nonneg (Nat.cast_nonneg _) (fracVal_nonneg _)
      · injection h with h
        rw [← h]
        positivity
    · simp only [firstNumberMatch, if_neg hc] at h
      exact ih q h

/-- Every value the price cleaner produces is nonnegative. -/
theorem clean_price_text_nonneg (s : String) (q : ℚ) (h : clean_price_text s = some q) :
    0 ≤ q :=
  firstNumberMatch_nonneg _ q h

/-- The price selector loop only carries nonnegative parses. -/
theorem priceScan_nonneg (page : Page) : ∀ (sels : List String) (acc : Option ℚ)
    (txt : String) (q : ℚ),
    (∀ x, acc = some x → 0 ≤ x) →
    (priceScan page sels acc txt).1 = some q → 0 ≤ q := by
  intro sels
  induction sels with
  | nil => intro acc txt q hacc h; exact hacc q h
  | cons s rest ih =>
    intro acc txt q hacc h
    cases hpt : page.priceText s with
    | none =>
      simp only [priceScan, hpt] at h
      exact ih acc txt q hacc h
    | some t =>
      simp only [priceScan, hpt] at h
      by_cases htr : pTruthy (clean_price_text t)
      · rw [if_pos htr] at h
        exact clean_price_text_nonneg t q h
      · rw [if_neg htr] at h
        exact ih _ t q (fun x hx => clean_price_text_nonneg t x hx) h

/-- A string truncated to 100 characters has length at most 100. -/
theorem take100_length (s : String) : (take100 s).length ≤ 100 :=
  s.data.length_take_le 100

/-- Truncation preserves nonemptiness. -/
theorem take100_ne_empty (s : String) (hs : s.data ≠ []) : take100 s ≠ "" := by
  intro hcon
  have hd : s.data.take 100 = [] := congrArg String.data hcon
  rw [List.take_eq_nil_iff] at hd
  rcases hd with hd | hd
  · cases hd
  · exact hs hd

/-- The record built by a successful scrape satisfies the availability
invariants. -/
theorem finishPage_found (store : StoreDesc) (k sku u now : String) (page : Page)
    (sleeps s2 : List ℕ) (rec : PriceRecord)
    (h : finishPage store k sku u now page sleeps = (.found rec, s2)) :
    rec.available = true ∧ 0 < rec.price ∧ rec.name ≠ "" ∧ rec.name.length ≤ 100 := by
  unfold finishPage at h
  cases hq : (priceScan page store.price_selectors none "").1 with
  | none =>
    rw [hq] at h
    simp at h
  | some q =>
    rw [hq] at h
    simp only [] at h
    by_cases h0 : q = 0
    · rw [if_pos h0] at h
      simp at h
    · rw [if_neg h0] at h
      simp only [Prod.mk.injEq, FetchResult.found.injEq] at h
      obtain ⟨hrec, -⟩ := h
      subst hrec
      refine ⟨rfl, ?_, ?_, take100_length _⟩
      · exact lt_of_le_of_ne
          (priceScan_nonneg page store.price_selectors none "" q (fun x hx => by cases hx) hq)
          (Ne.symm h0)
      · apply take100_ne_empty
        cases hn : nameScan page store.name_selectors none with
        | none => simp
        | some t =>
          by_cases ht : t = ""
          · simp [ht]
          · simp only [ht, if_neg ht]
            intro hcon
            exact ht (String.ext_iff.mpr hcon)

/-- Any `found` result of the attempt loop satisfies the invariants. -/
theorem attemptLoop_found (store : StoreDesc) (k sku u now : String) (retries : ℕ)
    (o : ℕ → FetchOutcome) :
    ∀ (fuel attempt : ℕ) (sleeps s2 : List ℕ) (rec : PriceRecord),
    attemptLoop store k sku u now retries o attempt fuel sleeps = (.found rec, s2) →
    rec.available = true ∧ 0 < rec.price ∧ rec.name ≠ "" ∧ rec.name.length ≤ 100 := by
  intro fuel
  induction fuel with
  | zero =>
    intro attempt sleeps s2 rec h
    simp [attemptLoop] at h
  | succ f ih =>
    intro attempt sleeps s2 rec h
    rw [attemptLoop] at h
    cases ho : o attempt with
    | ok page =>
      rw [ho] at h
      exact finishPage_found store k sku u now page sleeps s2 rec h
    | otherErr =>
      rw [ho] at h
      simp at h
    | transportErr =>
      rw [ho] at h
      by_cases hlt : attempt + 1 < retries
      · rw [if_pos hlt] at h
        exact ih _ _ s2 rec h
      · rw [if_neg hlt] at h
        exact ih _ _ s2 rec h

/-- **C10.** Every record `get_store_price` returns with `available=true` has
a strictly positive price (a zero parse is treated as "no price found") and a
nonempty name of at most 100 characters. -/
theorem available_record_invariants (k sku : String) (retries : ℕ) (o : ℕ → FetchOutcome)
    (now : String) (rec : PriceRecord) (sleeps : List ℕ)
    (h : get_store_price k sku retries o now = (.found rec, sleeps)) :
    rec.available = true ∧ 0 < rec.price ∧ rec.name ≠ "" ∧ rec.name.length ≤ 100 := by
  cases hs : lookupStore k with
  | none =>
    simp only [get_store_price, hs] at h
    simp at h
  | some st =>
    simp only [get_store_price, hs] at h
    exact attemptLoop_found st k sku _ now retries o retries 0 [] sleeps rec h

/-- **C10 witness.** The invariants evaluated at the record scraped from
`page0` for Coles. -/
theorem available_record_witness :
    rec0.available = true ∧ 0 < rec0.price ∧ rec0.name ≠ "" ∧ rec0.name.length ≤ 100 := by
  have h : get_store_price "coles" "123" 3 ok0 "t0" = (.found rec0, [2]) := by decide
  exact available_record_invariants "coles" "123" 3 ok0 "t0" rec0 [2] h

/-! ## Claims C7, C8: the Identifier Extractor -/

/-- Stripping keeps only characters of the original URL. -/
theorem mem_of_mem_trimChars {c : Char} {l : List Char} (h : c ∈ trimChars l) : c ∈ l := by
  unfold trimChars at h
  rw [List.mem_reverse] at h
  have h2 := (List.dropWhile_suffix Char.isWhitespace).sublist.subset h
  rw [List.mem_reverse] at h2
  exact (List.dropWhile_suffix Char.isWhitespace).sublist.subset h2

/-- A digit-free list has an empty leading digit run. -/
theorem digitRun_eq_nil : ∀ l : List Char, (∀ c ∈ l, c.isDigit = false) → digitRun l = [] := by
  intro l h
  cases l with
  | nil => rfl
  | cons c rest =>
    unfold digitRun
    rw [List.takeWhile_cons, h c (List.mem_cons_self c rest)]
    simp

/-- The scan finds nothing when the position matcher fails at every suffix. -/
theorem scanFirst_eq_none (f : List Char → Option (List Char)) :
    ∀ l : List Char, (∀ t, t <:+ l → f t = none) → scanFirst f l = none := by
  intro l
  induction l with
  | nil =>
    intro h
    rw [scanFirst]
    exact h [] (List.suffix_refl _)
  | cons c rest ih =>
    intro h
    have h1 := h (c :: rest) (List.suffix_refl _)
    simp only [scanFirst, h1]
    exact ih (fun t ht => h t (ht.trans (List.suffix_cons c rest)))

/-- A successful case-insensitive literal match returns a suffix of the input. -/
theorem ciPrefix_suffix : ∀ ps cs r : List Char, ciPrefix ps cs = some r → r <:+ cs := by
  intro ps
  induction ps with
  | nil =>
    intro cs r h
    injection h with h
    subst h
    exact List.suffix_refl _
  | cons p ps2 ih =>
    intro cs r h
    cases cs with
    | nil => cases h
    | cons c cs2 =>
      rw [ciPrefix] at h
      by_cases hc : (c.toLower == p) = true
      · rw [if_pos hc] at h
        exact (ih cs2 r h).trans (List.suffix_cons c cs2)
      · rw [if_neg hc] at h
        cases h

/-- The separator-plus-digits tail never matches a digit-free list. -/
theorem sepDigits_none (sep : Char → Bool) (t : List Char)
    (h : ∀ c ∈ t, c.isDigit = false) : sepDigits sep t = none := by
  cases t with
  | nil => rfl
  | cons c rest =>
    have hdr : digitRun rest = [] :=
      digitRun_eq_nil rest (fun x hx => h x (List.mem_cons_of_mem c hx))
    rw [sepDigits, if_neg (fun hc => hc.2 hdr)]

/-- Rule 1's dash scan never matches a digit-free segment. -/
theorem p1Seg_none : ∀ l : List Char, (∀ c ∈ l, c.isDigit = false) → p1Seg l = none := by
  intro l
  induction l with
  | nil => intro _; rfl
  | cons c rest ih =>
    intro h
    have hr := ih (fun x hx => h x (List.mem_cons_of_mem c hx))
    have hdr : digitRun rest = [] :=
      digitRun_eq_nil rest (fun x hx => h x (List.mem_cons_of_mem c hx))
    simp only [p1Seg, hr]
    rw [if_neg (fun hc => by rw [hdr] at hc; exact absurd hc.2 (by norm_num))]

/-- Rule 1 fails at every digit-free position. -/
theorem p1At_none (t : List Char) (h : ∀ c ∈ t, c.isDigit = false) : p1At t = none := by
  cases hcp : ciPrefix "/product/".data t with
  | none => simp [p1At, hcp]
  | some r =>
    have hrf : ∀ c ∈ r, c.isDigit = false :=
      fun c hc => h c ((ciPrefix_suffix _ t r hcp).sublist.subset hc)
    have hseg : ∀ c ∈ r.takeWhile (fun c => c != '/'), c.isDigit = false :=
      fun c hc => hrf c ((List.takeWhile_sublist _).subset hc)
    simp [p1At, hcp, p1Seg_none _ hseg]

/-- Rule 2 fails at every digit-free position. -/
theorem p2At_none (t : List Char) (h : ∀ c ∈ t, c.isDigit = false) : p2At t = none := by
  cases t with
  | nil => rfl
  | cons c rest =>
    have hdr : digitRun rest = [] :=
      digitRun_eq_nil rest (fun x hx => h x (List.mem_cons_of_mem c hx))
    rw [p2At, if_neg (fun hc => by rw [hdr] at hc; exact absurd hc.2 (by norm_num))]

/-- Rule 3 fails at every digit-free position. -/
theorem p3At_none (t : List Char) (h : ∀ c ∈ t, c.isDigit = false) : p3At t = none := by
  cases hcp : ciPrefix "sku".data t with
  | none => simp [p3At, hcp]
  | some r =>
    have hrf : ∀ c ∈ r, c.isDigit = false :=
      fun c hc => h c ((ciPrefix_suffix _ t r hcp).sublist.subset hc)
    simp [p3At, hcp, sepDigits_none isSep1 r hrf]

/-- Rule 4 fails at every digit-free position. -/
theorem p4At_none (t : List Char) (h : ∀ c ∈ t, c.isDigit = false) : p4At t = none := by
  cases hcp : ciPrefix "p".data t with
  | none => simp [p4At, hcp]
  | some r =>
    have hrf : ∀ c ∈ r, c.isDigit = false :=
      fun c hc => h c ((ciPrefix_suffix _ t r hcp).sublist.subset hc)
    simp [p4At, hcp, sepDigits_none isSep1 r hrf]

/-- Rule 5 fails at every digit-free position. -/
theorem p5At_none (t : List Char) (h : ∀ c ∈ t, c.isDigit = false) : p5At t = none := by
  cases hcp : ciPrefix "itemcode".data t with
  | none => simp [p5At, hcp]
  | some r =>
    have hrf : ∀ c ∈ r, c.isDigit = false :=
      fun c hc => h c ((ciPrefix_suffix _ t r hcp).sublist.subset hc)
    simp [p5At, hcp, sepDigits_none isSep2 r hrf]

/-- Rule 6 fails at every digit-free position. -/
theorem p6At_none (t : List Char) (h : ∀ c ∈ t, c.isDigit = false) : p6At t = none := by
  cases hcp : ciPrefix "product".data t with
  | none => simp [p6At, hcp]
  | some r =>
    have hrf : ∀ c ∈ r, c.isDigit = false :=
      fun c hc => h c ((ciPrefix_suffix _ t r hcp).sublist.subset hc)
    simp [p6At, hcp, sepDigits_none isSep3 r hrf]

/-- Rule 8 fails at every digit-free position. -/
theorem p8At_none (t : List Char) (h : ∀ c ∈ t, c.isDigit = false) : p8At t = none := by
  cases t with
  | nil => rfl
  | cons c rest =>
    have hdr : digitRun rest = [] :=
      digitRun_eq_nil rest (fun x hx => h x (List.mem_cons_of_mem c hx))
    rw [p8At, if_neg (fun hc => by rw [hdr] at hc; exact absurd hc.2 (by norm_num))]

/-- Rule 9 fails at every digit-free position. -/
theorem p9At_none (t : List Char) (h : ∀ c ∈ t, c.isDigit = false) : p9At t = none := by
  cases hcp : ciPrefix "item/".data t with
  | none => simp [p9At, hcp]
  | some r =>
    have hdr : digitRun r = [] :=
      digitRun_eq_nil r (fun x hx => h x ((ciPrefix_suffix _ t r hcp).sublist.subset hx))
    simp [p9At, hcp, hdr]

/-- The fallback fails on a digit-free list. -/
theorem fallbackScan_none : ∀ l : List Char, (∀ c ∈ l, c.isDigit = false) →
    fallbackScan l = none := by
  intro l
  induction l with
  | nil => intro _; rfl
  | cons c rest ih =>
    intro h
    have hdr : digitRun (c :: rest) = [] := digitRun_eq_nil _ h
    rw [fallbackScan, if_neg (fun hc => by rw [hdr] at hc; exact absurd hc.1 (by norm_num))]
    exact ih (fun x hx => h x (List.mem_cons_of_mem c hx))

/-- Ten alphanumerics at the head survive appending on the right. -/
theorem alnum10_append : ∀ (n : ℕ) (t s : List Char),
    alnum10 n t = true → alnum10 n (t ++ s) = true := by
  intro n
  induction n with
  | zero => intro t s _; rfl
  | succ m ih =>
    intro t s h
    cases t with
    | nil => cases h
    | cons c r =>
      rw [List.cons_append]
      rw [alnum10] at h ⊢
      simp only [Bool.and_eq_true] at h ⊢
      exact ⟨h.1, ih r s h.2⟩

/-- An ASIN-rule hit survives appending on the right. -/
theorem dpAt_append (t s : List Char) (h : dpAt t = true) : dpAt (t ++ s) = true := by
  cases t with
  | nil => cases h
  | cons c1 t1 =>
    cases t1 with
    | nil => simp [dpAt] at h
    | cons c2 t2 =>
      cases t2 with
      | nil => simp [dpAt] at h
      | cons c3 r =>
        simp only [List.cons_append]
        rw [dpAt] at h ⊢
        simp only [Bool.and_eq_true] at h ⊢
        exact ⟨⟨⟨h.1.1.1, h.1.1.2⟩, h.1.2⟩, alnum10_append 10 r s h.2⟩

/-- Rule 7 fails wherever its matching condition does. -/
theorem p7At_eq_none (t : List Char) (h : dpAt t = false) : p7At t = none := by
  cases t with
  | nil => rfl
  | cons c1 t1 =>
    cases t1 with
    | nil => rfl
    | cons c2 t2 =>
      cases t2 with
      | nil => rfl
      | cons c3 r => simp [p7At, h]

/-- Stripping decomposes the whitespace-dropped URL into the stripped part
followed by the trailing whitespace. -/
theorem trimChars_append_eq (l : List Char) :
    trimChars l ++ ((l.dropWhile Char.isWhitespace).reverse.takeWhile Char.isWhitespace).reverse
      = l.dropWhile Char.isWhitespace := by
  unfold trimChars
  rw [← List.reverse_append, List.takeWhile_append_dropWhile, List.reverse_reverse]

/-- Every suffix of the stripped URL extends to a suffix of the URL. -/
theorem suffix_through_trim (l t : List Char) (h : t <:+ trimChars l) :
    t ++ ((l.dropWhile Char.isWhitespace).reverse.takeWhile Char.isWhitespace).reverse <:+ l := by
  obtain ⟨pre, hpre⟩ := h
  have hm : pre ++ (t ++
      ((l.dropWhile Char.isWhitespace).reverse.takeWhile Char.isWhitespace).reverse)
      = l.dropWhile Char.isWhitespace := by
    rw [← List.append_assoc, hpre, trimChars_append_eq]
  exact List.IsSuffix.trans ⟨pre, hm⟩ (List.dropWhile_suffix Char.isWhitespace)

/-- **C7 counterexample.** Two URLs with no four-digit run on which the
extractor still succeeds: a digit-free ASIN-style URL matched case-insensitively
by rule 7, and a `sku=` URL with a two-digit identifier matched by rule 3. -/
theorem extractor_short_run_cex :
    (hasDigitRun 4 urlA.data = false ∧ extract_sku urlA = some "abcdefghij") ∧
    (hasDigitRun 4 urlB.data = false ∧ extract_sku urlB = some "12") := by decide

/-- **C7 (amended).** For every URL that contains no decimal digit and no
case-insensitive occurrence of `dp/` followed by ten ASCII alphanumeric
characters, the Identifier Extractor reports NotFound. -/
theorem extractor_digit_asin_free (url : String)
    (h1 : ∀ c ∈ url.data, c.isDigit = false)
    (h2 : ∀ t ∈ url.data.tails, dpAt t = false) :
    extract_sku url = none := by
  by_cases hu : url = ""
  · rw [extract_sku, if_pos hu]
  · have hd : ∀ c ∈ trimChars url.data, c.isDigit = false :=
      fun c hc => h1 c (mem_of_mem_trimChars hc)
    have hdp : ∀ t, t <:+ trimChars url.data → dpAt t = false := by
      intro t ht
      cases hb : dpAt t with
      | false => rfl
      | true =>
        have hsx := suffix_through_trim url.data t ht
        have hfull := h2 _ ((List.mem_tails _ _).mpr hsx)
        rw [dpAt_append _ _ hb] at hfull
        cases hfull
    have sdf : ∀ t, t <:+ trimChars url.data → ∀ c ∈ t, c.isDigit = false :=
      fun t ht c hc => hd c (ht.sublist.subset hc)
    have n1 : scanFirst p1At (trimChars url.data) = none :=
      scanFirst_eq_none _ _ (fun t ht => p1At_none t (sdf t ht))
    have n2 : scanFirst p2At (trimChars url.data) = none :=
      scanFirst_eq_none _ _ (fun t ht => p2At_none t (sdf t ht))
    have n3 : scanFirst p3At (trimChars url.data) = none :=
      scanFirst_eq_none _ _ (fun t ht => p3At_none t (sdf t ht))
    have n4 : scanFirst p4At (trimChars url.data) = none :=
      scanFirst_eq_none _ _ (fun t ht => p4At_none t (sdf t ht))
    have n5 : scanFirst p5At (trimChars url.data) = none :=
      scanFirst_eq_none _ _ (fun t ht => p5At_none t (sdf t ht))
    have n6 : scanFirst p6At (trimChars url.data) = none :=
      scanFirst_eq_none _ _ (fun t ht => p6At_none t (sdf t ht))
    have n7 : scanFirst p7At (trimChars url.data) = none :=
      scanFirst_eq_none _ _ (fun t ht => p7At_eq_none t (hdp t ht))
    have n8 : scanFirst p8At (trimChars url.data) = none :=
      scanFirst_eq_none _ _ (fun t ht => p8At_none t (sdf t ht))
    have n9 : scanFirst p9At (trimChars url.data) = none :=
      scanFirst_eq_none _ _ (fun t ht => p9At_none t (sdf t ht))
    have nf : fallbackScan (trimChars url.data) = none := fallbackScan_none _ hd
    simp only [extract_sku, if_neg hu, skuFromChars, n1, n2, n3, n4, n5, n6, n7, n8, n9, nf]

/-- **C7 witness.** The amended statement evaluated at a digit-free URL. -/
theorem extractor_digit_asin_free_witness : extract_sku "https://example.org/about" = none :=
  extractor_digit_asin_free "https://example.org/about" (by decide) (by decide)

/-- Characters never dropped by `dropWhile` stay in the result. -/
theorem mem_dropWhile_of_mem (p : Char → Bool) (a : Char) :
    ∀ l : List Char, a ∈ l → p a = false → a ∈ l.dropWhile p := by
  intro l
  induction l with
  | nil => intro h _; cases h
  | cons c rest ih =>
    intro hm hp
    rw [List.dropWhile_cons]
    by_cases hc : p c = true
    · rw [if_pos hc]
      rcases List.mem_cons.mp hm with he | hr
      · rw [he] at hp; rw [hp] at hc; cases hc
      · exact ih hr hp
    · rw [if_neg hc]
      exact hm

/-- On a slash-free list the fallback scan is exactly "first maximal run of
four or more digits". -/
theorem fallbackScan_no_slash : ∀ l : List Char, '/' ∉ l →
    fallbackScan l = firstLongRun l := by
  intro l
  induction l with
  | nil => intro _; rfl
  | cons c rest ih =>
    intro hn
    rw [fallbackScan, firstLongRun]
    by_cases h4 : 4 ≤ (digitRun (c :: rest)).length
    · have hsl : '/' ∉ (c :: rest).dropWhile Char.isDigit := fun hm =>
        hn ((List.dropWhile_suffix Char.isDigit).sublist.subset hm)
      rw [if_pos ⟨h4, hsl⟩, if_pos h4]
    · rw [if_neg (fun hc => h4 hc.1), if_neg h4]
      exact ih (fun hm => hn (List.mem_cons_of_mem c hm))

/-- The code's fallback equals the specification-side composition: take the
segment after the last slash, then its first maximal run of four or more
digits. -/
theorem fallbackScan_eq_spec : ∀ l : List Char,
    fallbackScan l = firstLongRun (afterLastSlash l) := by
  intro l
  induction l with
  | nil => rfl
  | cons c rest ih =>
    by_cases hr : '/' ∈ rest
    · have hcond : ¬ (4 ≤ (digitRun (c :: rest)).length ∧
          '/' ∉ (c :: rest).dropWhile Char.isDigit) := by
        intro hc
        exact hc.2 (mem_dropWhile_of_mem Char.isDigit '/' (c :: rest)
          (List.mem_cons_of_mem c hr) (by decide))
      rw [fallbackScan, if_neg hcond, afterLastSlash, if_pos hr]
      exact ih
    · by_cases hc : c = '/'
      · subst hc
        have hdr : digitRun ('/' :: rest) = [] := by
          show ('/' :: rest).takeWhile Char.isDigit = []
          rw [List.takeWhile_cons, show Char.isDigit '/' = false from rfl]
          simp
        rw [fallbackScan, afterLastSlash, if_neg hr, if_pos rfl,
            if_neg (fun hx => by rw [hdr] at hx; exact absurd hx.1 (by norm_num))]
        exact fallbackScan_no_slash rest hr
      · have hns : '/' ∉ c :: rest := by
          intro hm
          rcases List.mem_cons.mp hm with he | hin
          · exact hc he.symm
          · exact hr hin
        rw [afterLastSlash, if_neg hr, if_neg hc]
        exact fallbackScan_no_slash (c :: rest) hns

/-- **C8 counterexample.** On `urlF` no cascade rule matches, the claimed
"last run before the end of the path" is `5678`, yet the code returns the
first run after the last slash, `1234`; on `urlQ` the claimed value does not
exist (the only long run sits inside the query fragment), yet the code
returns `12345` from inside the query. -/
theorem fallback_not_last_run_cex :
    skuFromChars (trimChars urlF.data) = none ∧
    extract_sku urlF = some "1234" ∧
    (lastLongRun (beforeQuery (trimChars urlF.data))).map (fun l => (⟨l⟩ : String))
      = some "5678" ∧
    skuFromChars (trimChars urlQ.data) = none ∧
    extract_sku urlQ = some "12345" ∧
    lastLongRun (beforeQuery (trimChars urlQ.data)) = none ∧
    ("1234" : String) ≠ "5678" := by decide

/-- **C8 (amended).** On every nonempty URL on which none of the nine cascade
rules matches, the extractor returns the fallback, and the fallback is the
first (leftmost) maximal run of four or more digits lying after the URL's last
slash - runs inside a trailing query fragment included - or NotFound when that
segment has no such run. -/
theorem extractor_fallback_first_run (url : String) (h0 : url ≠ "")
    (h : skuFromChars (trimChars url.data) = none) :
    extract_sku url =
      (firstLongRun (afterLastSlash (trimChars url.data))).map (fun l => (⟨l⟩ : String)) := by
  simp only [extract_sku, if_neg h0, h]
  rw [fallbackScan_eq_spec]
  cases firstLongRun (afterLastSlash (trimChars url.data)) <;> rfl

/-- **C8 witness.** The amended statement evaluated at `urlF`, where both
sides compute to `1234`. -/
theorem extractor_fallback_witness :
    extract_sku urlF =
      (firstLongRun (afterLastSlash (trimChars urlF.data))).map (fun l => (⟨l⟩ : String)) :=
  extractor_fallback_first_run urlF (by decide) (by decide)

end Price
